import Mathlib

/-!
Verification of the trading-agent decision pipeline:
position sizing and trade validation (`agents/risk_manager.py`),
signal fusion (`agents/strategy_agent.py`), execution bookkeeping
(`agents/execution_agent.py`, `utils/database.py`) and the
mean-reversion backtest aggregation (`strategies/mean_reversion.py`).

Prices, fractions and P&L are modelled as exact rationals; Python's
`int(...)` conversion (truncation toward zero) is `truncQ`.
-/

namespace TradingAgent

/-- Python `int(q)`: truncation toward zero. -/
def truncQ (q : ℚ) : ℤ := if 0 ≤ q then ⌊q⌋ else ⌈q⌉

theorem truncQ_of_nonneg {q : ℚ} (h : 0 ≤ q) : truncQ q = ⌊q⌋ := by
  simp [truncQ, h]

/-! ### Configuration (`utils/config.py`) -/

def MAX_POSITION_SIZE : ℚ := 0.2

def MAX_PORTFOLIO_RISK : ℚ := 0.02

def MAX_POSITIONS : Nat := 5

def DAILY_LOSS_LIMIT : ℚ := 0.05

/-! ### RiskManagerAgent.calculate_position_size (`agents/risk_manager.py`, 44-80)

The three sequential reassignments of `quantity` in the source are the three
stage functions below: risk-based quantity, position-size cap, volatility
halving (in that order, as in the code). -/

structure PositionSizing where
  quantity : ℤ
  position_value : ℚ
  risk_per_share : ℚ
  risk_amount : ℚ
  risk_percent : ℚ
  position_percent : ℚ
deriving DecidableEq, Repr

inductive SizingResult
  | rejected            -- "Stop loss too close to entry price"
  | sized (s : PositionSizing)
deriving DecidableEq, Repr

/-- `quantity = int(max_risk / risk_per_share)` -/
def risk_based_q (pv r : ℚ) : ℤ := truncQ (pv * MAX_PORTFOLIO_RISK / r)

/-- the `position_value > max_position_value` cap -/
def capped_q (pv entry : ℚ) (q0 : ℤ) : ℤ :=
  if (q0 : ℚ) * entry > pv * MAX_POSITION_SIZE then
    truncQ (pv * MAX_POSITION_SIZE / entry)
  else q0

/-- `if volatility and volatility > 3: quantity = int(quantity * 0.5)` -/
def vol_adjusted_q (vol : Option ℚ) (q : ℤ) : ℤ :=
  match vol with
  | some v => if v > 3 then truncQ ((q : ℚ) * 0.5) else q
  | none => q

def calculate_position_size (portfolio_value entry_price stop_loss : ℚ)
    (volatility : Option ℚ) : SizingResult :=
  let risk_per_share := |entry_price - stop_loss|
  if risk_per_share = 0 then .rejected
  else
    let q := vol_adjusted_q volatility
      (capped_q portfolio_value entry_price
        (risk_based_q portfolio_value risk_per_share))
    .sized {
      quantity := q
      position_value := (q : ℚ) * entry_price
      risk_per_share := risk_per_share
      risk_amount := (q : ℚ) * risk_per_share
      risk_percent := (q : ℚ) * risk_per_share / portfolio_value * 100
      position_percent := (q : ℚ) * entry_price / portfolio_value * 100 }

theorem risk_based_q_nonneg {pv r : ℚ} (hpv : 0 < pv) (hr : 0 < r) :
    0 ≤ risk_based_q pv r := by
  have hmr : (0 : ℚ) < pv * MAX_PORTFOLIO_RISK := by
    have : (0 : ℚ) < MAX_PORTFOLIO_RISK := by norm_num [MAX_PORTFOLIO_RISK]
    positivity
  rw [risk_based_q, truncQ_of_nonneg (le_of_lt (div_pos hmr hr))]
  exact Int.floor_nonneg.mpr (le_of_lt (div_pos hmr hr))

theorem risk_based_q_risk {pv r : ℚ} (hpv : 0 < pv) (hr : 0 < r) :
    (risk_based_q pv r : ℚ) * r ≤ pv * MAX_PORTFOLIO_RISK := by
  have hmr : (0 : ℚ) < pv * MAX_PORTFOLIO_RISK := by
    have : (0 : ℚ) < MAX_PORTFOLIO_RISK := by norm_num [MAX_PORTFOLIO_RISK]
    positivity
  rw [risk_based_q, truncQ_of_nonneg (le_of_lt (div_pos hmr hr))]
  have h1 : (⌊pv * MAX_PORTFOLIO_RISK / r⌋ : ℚ) ≤ pv * MAX_PORTFOLIO_RISK / r :=
    Int.floor_le _
  calc (⌊pv * MAX_PORTFOLIO_RISK / r⌋ : ℚ) * r
      ≤ pv * MAX_PORTFOLIO_RISK / r * r :=
        mul_le_mul_of_nonneg_right h1 (le_of_lt hr)
    _ = pv * MAX_PORTFOLIO_RISK := div_mul_cancel₀ _ (ne_of_gt hr)

theorem capped_q_le {pv entry : ℚ} (hpv : 0 < pv) (hentry : 0 < entry)
    (q0 : ℤ) : capped_q pv entry q0 ≤ q0 := by
  have hmpv : (0 : ℚ) < pv * MAX_POSITION_SIZE := by
    have : (0 : ℚ) < MAX_POSITION_SIZE := by norm_num [MAX_POSITION_SIZE]
    positivity
  rw [capped_q]
  split
  · next hcap =>
    rw [truncQ_of_nonneg (le_of_lt (div_pos hmpv hentry))]
    have h1 : (⌊pv * MAX_POSITION_SIZE / entry⌋ : ℚ) ≤ pv * MAX_POSITION_SIZE / entry :=
      Int.floor_le _
    have h2 : pv * MAX_POSITION_SIZE / entry < (q0 : ℚ) :=
      (div_lt_iff₀ hentry).mpr (by linarith)
    exact_mod_cast (lt_of_le_of_lt h1 h2).le
  · exact le_refl _

theorem capped_q_nonneg {pv entry : ℚ} (hpv : 0 < pv) (hentry : 0 < entry)
    {q0 : ℤ} (h0 : 0 ≤ q0) : 0 ≤ capped_q pv entry q0 := by
  have hmpv : (0 : ℚ) < pv * MAX_POSITION_SIZE := by
    have : (0 : ℚ) < MAX_POSITION_SIZE := by norm_num [MAX_POSITION_SIZE]
    positivity
  rw [capped_q]
  split
  · rw [truncQ_of_nonneg (le_of_lt (div_pos hmpv hentry))]
    exact Int.floor_nonneg.mpr (le_of_lt (div_pos hmpv hentry))
  · exact h0

theorem capped_q_value {pv entry : ℚ} (hpv : 0 < pv) (hentry : 0 < entry)
    (q0 : ℤ) : (capped_q pv entry q0 : ℚ) * entry ≤ pv * MAX_POSITION_SIZE := by
  have hmpv : (0 : ℚ) < pv * MAX_POSITION_SIZE := by
    have : (0 : ℚ) < MAX_POSITION_SIZE := by norm_num [MAX_POSITION_SIZE]
    positivity
  rw [capped_q]
  split
  · next hcap =>
    rw [truncQ_of_nonneg (le_of_lt (div_pos hmpv hentry))]
    have h1 : (⌊pv * MAX_POSITION_SIZE / entry⌋ : ℚ) ≤ pv * MAX_POSITION_SIZE / entry :=
      Int.floor_le _
    calc (⌊pv * MAX_POSITION_SIZE / entry⌋ : ℚ) * entry
        ≤ pv * MAX_POSITION_SIZE / entry * entry :=
          mul_le_mul_of_nonneg_right h1 (le_of_lt hentry)
      _ = pv * MAX_POSITION_SIZE := div_mul_cancel₀ _ (ne_of_gt hentry)
  · next hcap => exact le_of_not_lt hcap

theorem vol_adjusted_q_le (vol : Option ℚ) {q : ℤ} (h0 : 0 ≤ q) :
    vol_adjusted_q vol q ≤ q := by
  have harg : (0 : ℚ) ≤ (q : ℚ) * 0.5 := by
    have hq : (0 : ℚ) ≤ (q : ℚ) := by exact_mod_cast h0
    nlinarith
  have hhalf : truncQ ((q : ℚ) * 0.5) ≤ q := by
    rw [truncQ_of_nonneg harg]
    have h1 : (q : ℚ) * 0.5 ≤ (q : ℚ) := by
      have hq : (0 : ℚ) ≤ (q : ℚ) := by exact_mod_cast h0
      nlinarith
    have h2 : ⌊(q : ℚ) * 0.5⌋ ≤ ⌊(q : ℚ)⌋ := Int.floor_le_floor h1
    simpa using h2
  cases vol with
  | none => exact le_refl _
  | some v =>
    by_cases hv : v > 3
    · simpa [vol_adjusted_q, hv] using hhalf
    · simp [vol_adjusted_q, hv]

theorem vol_adjusted_q_nonneg (vol : Option ℚ) {q : ℤ} (h0 : 0 ≤ q) :
    0 ≤ vol_adjusted_q vol q := by
  have harg : (0 : ℚ) ≤ (q : ℚ) * 0.5 := by
    have hq : (0 : ℚ) ≤ (q : ℚ) := by exact_mod_cast h0
    nlinarith
  have hhalf : 0 ≤ truncQ ((q : ℚ) * 0.5) := by
    rw [truncQ_of_nonneg harg]
    exact Int.floor_nonneg.mpr harg
  cases vol with
  | none => exact h0
  | some v =>
    by_cases hv : v > 3
    · simpa [vol_adjusted_q, hv] using hhalf
    · simpa [vol_adjusted_q, hv] using h0

/-- C1: for every `portfolio_value > 0`, `entry > 0`, `entry ≠ stop` and any
volatility option, `calculate_position_size` approves with a quantity `q ≥ 0`
whose position value is at most `portfolio_value × MAX_POSITION_SIZE` and
whose risk amount (`q × |entry − stop|`) is at most
`portfolio_value × MAX_PORTFOLIO_RISK` — with or without the volatility
halving, and in fact exactly, not merely within one share of rounding. -/
theorem position_size_within_risk_limits
    (pv entry stop : ℚ) (vol : Option ℚ)
    (hpv : 0 < pv) (hentry : 0 < entry) (hne : entry ≠ stop) :
    ∃ s, calculate_position_size pv entry stop vol = .sized s ∧
      0 ≤ s.quantity ∧
      s.risk_amount = (s.quantity : ℚ) * |entry - stop| ∧
      s.position_value ≤ pv * MAX_POSITION_SIZE ∧
      s.risk_amount ≤ pv * MAX_PORTFOLIO_RISK := by
  have hr : (0 : ℚ) < |entry - stop| := abs_pos.mpr (sub_ne_zero.mpr hne)
  have hq0nn : 0 ≤ risk_based_q pv |entry - stop| := risk_based_q_nonneg hpv hr
  have hq1le : capped_q pv entry (risk_based_q pv |entry - stop|)
      ≤ risk_based_q pv |entry - stop| := capped_q_le hpv hentry _
  have hq1nn : 0 ≤ capped_q pv entry (risk_based_q pv |entry - stop|) :=
    capped_q_nonneg hpv hentry hq0nn
  have hq2le : vol_adjusted_q vol (capped_q pv entry (risk_based_q pv |entry - stop|))
      ≤ capped_q pv entry (risk_based_q pv |entry - stop|) :=
    vol_adjusted_q_le vol hq1nn
  have hq2nn : 0 ≤ vol_adjusted_q vol (capped_q pv entry (risk_based_q pv |entry - stop|)) :=
    vol_adjusted_q_nonneg vol hq1nn
  set qf : ℤ := vol_adjusted_q vol (capped_q pv entry (risk_based_q pv |entry - stop|))
    with hqf
  refine ⟨{ quantity := qf
            position_value := (qf : ℚ) * entry
            risk_per_share := |entry - stop|
            risk_amount := (qf : ℚ) * |entry - stop|
            risk_percent := (qf : ℚ) * |entry - stop| / pv * 100
            position_percent := (qf : ℚ) * entry / pv * 100 }, ?_, hq2nn, rfl, ?_, ?_⟩
  · simp only [calculate_position_size]
    rw [if_neg (ne_of_gt hr)]
  · show (qf : ℚ) * entry ≤ pv * MAX_POSITION_SIZE
    have hc : (qf : ℚ) ≤ (capped_q pv entry (risk_based_q pv |entry - stop|) : ℚ) := by
      exact_mod_cast hq2le
    calc (qf : ℚ) * entry
        ≤ (capped_q pv entry (risk_based_q pv |entry - stop|) : ℚ) * entry :=
          mul_le_mul_of_nonneg_right hc (le_of_lt hentry)
      _ ≤ pv * MAX_POSITION_SIZE := capped_q_value hpv hentry _
  · show (qf : ℚ) * |entry - stop| ≤ pv * MAX_PORTFOLIO_RISK
    have hc : (qf : ℚ) ≤ (risk_based_q pv |entry - stop| : ℚ) := by
      exact_mod_cast le_trans hq2le hq1le
    calc (qf : ℚ) * |entry - stop|
        ≤ (risk_based_q pv |entry - stop| : ℚ) * |entry - stop| :=
          mul_le_mul_of_nonneg_right hc (le_of_lt hr)
      _ ≤ pv * MAX_PORTFOLIO_RISK := risk_based_q_risk hpv hr

/-- Witness for C1: the spec's Scenario A (portfolio 10000, entry 250,
stop 245) satisfies all hypotheses and the bounds. -/
theorem position_size_within_risk_limits_witness :
    ∃ s, calculate_position_size 10000 250 245 none = .sized s ∧
      0 ≤ s.quantity ∧
      s.risk_amount = (s.quantity : ℚ) * |(250 : ℚ) - 245| ∧
      s.position_value ≤ 10000 * MAX_POSITION_SIZE ∧
      s.risk_amount ≤ 10000 * MAX_PORTFOLIO_RISK :=
  position_size_within_risk_limits 10000 250 245 none
    (by norm_num) (by norm_num) (by norm_num)

/-! ### Positions and the trade store (`utils/database.py`) -/

structure Position where
  symbol : String
  quantity : ℚ
  entry_price : ℚ
  current_price : ℚ
  stop_loss : ℚ
  strategy : String
  entry_timestamp : Nat
  unrealized_pnl : ℚ
deriving DecidableEq, Repr

/-! ### RiskManagerAgent.validate_trade (`agents/risk_manager.py`, 82-169) -/

inductive VTag
  | daily_loss_limit_exceeded
  | daily_loss_limit_ok
  | max_positions_exceeded
  | position_limit_ok
  | duplicate_position
  | no_duplicate_position
  | low_confidence
  | confidence_ok
  | position_size_invalid
  | position_size_ok
  | insufficient_capital
  | capital_sufficient
deriving DecidableEq, Repr

structure TradeValidation where
  approved : Bool
  validations : List VTag
  position_details : Option PositionSizing
deriving DecidableEq, Repr

/-- `validate_trade`; `daily_pnl` and the open-position list are the agent's
state (`self.daily_pnl`, `self.db.get_open_positions()`), `action` is
accepted but never read by the source. -/
def validate_trade (portfolio_value daily_pnl : ℚ)
    (open_positions : List Position)
    (symbol action : String)
    (entry_price stop_loss confidence : ℚ) (volatility : Option ℚ) :
    TradeValidation :=
  if daily_pnl < -(portfolio_value * DAILY_LOSS_LIMIT) then
    { approved := false
      validations := [.daily_loss_limit_exceeded]
      position_details := none }
  else if MAX_POSITIONS ≤ open_positions.length then
    { approved := false
      validations := [.daily_loss_limit_ok, .max_positions_exceeded]
      position_details := none }
  else if open_positions.any (fun p => p.symbol = symbol) then
    { approved := false
      validations := [.daily_loss_limit_ok, .position_limit_ok, .duplicate_position]
      position_details := none }
  else if confidence < 0.3 then
    { approved := false
      validations := [.daily_loss_limit_ok, .position_limit_ok,
        .no_duplicate_position, .low_confidence]
      position_details := none }
  else
    match calculate_position_size portfolio_value entry_price stop_loss volatility with
    | .rejected =>
      { approved := false
        validations := [.daily_loss_limit_ok, .position_limit_ok,
          .no_duplicate_position, .confidence_ok, .position_size_invalid]
        position_details := none }
    | .sized s =>
      if s.position_value > portfolio_value * 0.9 then
        { approved := false
          validations := [.daily_loss_limit_ok, .position_limit_ok,
            .no_duplicate_position, .confidence_ok, .position_size_ok,
            .insufficient_capital]
          position_details := none }
      else
        { approved := true
          validations := [.daily_loss_limit_ok, .position_limit_ok,
            .no_duplicate_position, .confidence_ok, .position_size_ok,
            .capital_sufficient]
          position_details := some s }

/-- C2: whenever `daily_pnl < −(portfolio_value × DAILY_LOSS_LIMIT)`,
`validate_trade` rejects with only the daily-loss tag, for every symbol,
action, entry, stop, confidence and volatility — the check runs first,
before any other validation. -/
theorem validate_trade_daily_loss_short_circuits
    (pv dpnl : ℚ) (ps : List Position) (sym act : String)
    (entry stop conf : ℚ) (vol : Option ℚ)
    (h : dpnl < -(pv * DAILY_LOSS_LIMIT)) :
    (validate_trade pv dpnl ps sym act entry stop conf vol).approved = false ∧
    (validate_trade pv dpnl ps sym act entry stop conf vol).validations
      = [.daily_loss_limit_exceeded] := by
  simp [validate_trade, h]

/-- Witness for C2: with a 10000 portfolio and a daily loss of 600
(limit 500), a perfect-looking trade is still rejected. -/
theorem validate_trade_daily_loss_short_circuits_witness :
    ((-600 : ℚ) < -(10000 * DAILY_LOSS_LIMIT)) ∧
    (validate_trade 10000 (-600) [] "TSLA" "buy" 250 245 0.9 none).approved = false ∧
    (validate_trade 10000 (-600) [] "TSLA" "buy" 250 245 0.9 none).validations
      = [.daily_loss_limit_exceeded] :=
  ⟨by norm_num [DAILY_LOSS_LIMIT],
    validate_trade_daily_loss_short_circuits 10000 (-600) [] "TSLA" "buy" 250 245 0.9 none
      (by norm_num [DAILY_LOSS_LIMIT])⟩

/-! ### RiskManagerAgent.should_close_position (`agents/risk_manager.py`, 171-225) -/

inductive ExitType
  | stop_loss
  | signal
deriving DecidableEq, Repr

/-- possible `signal` strings passed to `should_close_position`; any other
string behaves like `none` and is not modelled separately. -/
inductive ExitSignal
  | close
  | sell
  | buy
deriving DecidableEq, Repr

structure CloseDecision where
  should_close : Bool
  exit_type : Option ExitType
deriving DecidableEq, Repr

def should_close_position (position : Position) (current_price : ℚ)
    (signal : Option ExitSignal) : CloseDecision :=
  if current_price ≤ position.stop_loss then
    { should_close := true, exit_type := some .stop_loss }
  else if signal = some .close then
    { should_close := true, exit_type := some .signal }
  else if signal = some .sell ∧ position.quantity > 0 then
    { should_close := true, exit_type := some .signal }
  else if signal = some .buy ∧ position.quantity < 0 then
    { should_close := true, exit_type := some .signal }
  else
    { should_close := false, exit_type := none }

/-- A short position (quantity −1, stop 110 above the 100 entry) whose price
has breached the stop from below at 120. -/
def shortPos : Position :=
  { symbol := "TSLA", quantity := -1, entry_price := 100, current_price := 120
    stop_loss := 110, strategy := "momentum", entry_timestamp := 0
    unrealized_pnl := -20 }

/-- C4 counterexample: for the short position above, the price 120 is at or
above the stop-loss 110, yet `should_close_position` does not close — the
claimed short-side stop-loss exit does not happen (the source compares
`current_price <= stop_loss` only). -/
theorem short_stop_breach_not_closed :
    shortPos.quantity < 0 ∧
    shortPos.stop_loss ≤ 120 ∧
    should_close_position shortPos 120 none
      = { should_close := false, exit_type := none } := by
  refine ⟨by norm_num [shortPos], by norm_num [shortPos], ?_⟩
  simp [should_close_position, shortPos]
  norm_num

/-- C4 amended: the stop-loss check runs first and is unconditional, but it
fires exactly when `current_price ≤ stop_loss`, for longs and shorts alike
(a short's upward breach is not detected); past it, an explicit close
signal, then a signal opposite to the held side, close with exit type
`signal`; otherwise no close. -/
theorem should_close_position_decision
    (p : Position) (price : ℚ) (sig : Option ExitSignal) :
    (price ≤ p.stop_loss →
      should_close_position p price sig
        = { should_close := true, exit_type := some .stop_loss }) ∧
    (p.stop_loss < price → sig = some .close →
      should_close_position p price sig
        = { should_close := true, exit_type := some .signal }) ∧
    (p.stop_loss < price → sig = some .sell → 0 < p.quantity →
      should_close_position p price sig
        = { should_close := true, exit_type := some .signal }) ∧
    (p.stop_loss < price → sig = some .buy → p.quantity < 0 →
      should_close_position p price sig
        = { should_close := true, exit_type := some .signal }) ∧
    (p.stop_loss < price → (sig = none ∨
        (sig = some .sell ∧ p.quantity ≤ 0) ∨ (sig = some .buy ∧ 0 ≤ p.quantity)) →
      should_close_position p price sig
        = { should_close := false, exit_type := none }) := by
  refine ⟨?_, ?_, ?_, ?_, ?_⟩
  · intro h
    simp [should_close_position, h]
  · intro h hs
    simp [should_close_position, not_le.mpr h, hs]
  · intro h hs hq
    simp [should_close_position, not_le.mpr h, hs, hq]
  · intro h hs hq
    simp [should_close_position, not_le.mpr h, hs, hq]
  · intro h hs
    rcases hs with hs | ⟨hs, hq⟩ | ⟨hs, hq⟩
    · simp [should_close_position, not_le.mpr h, hs]
    · simp [should_close_position, not_le.mpr h, hs, not_lt.mpr hq]
    · simp [should_close_position, not_le.mpr h, hs, not_lt.mpr hq]

/-- Witness for C4's amended theorem: a long at stop 95 with price 90 closes
as a stop-loss exit. -/
theorem should_close_position_decision_witness :
    should_close_position
      { symbol := "TSLA", quantity := 10, entry_price := 100, current_price := 90
        stop_loss := 95, strategy := "m", entry_timestamp := 0, unrealized_pnl := 0 }
      90 none
      = { should_close := true, exit_type := some ExitType.stop_loss } :=
  (should_close_position_decision
    { symbol := "TSLA", quantity := 10, entry_price := 100, current_price := 90
      stop_loss := 95, strategy := "m", entry_timestamp := 0, unrealized_pnl := 0 }
    90 none).1 (by norm_num)

/-! ### StrategyAgent signal fusion (`agents/strategy_agent.py`, 26-160)

A per-strategy output is its action plus the strength the fusion reads
(`s.get('signal_strength', s.get('confidence', 0))`) and the optional price
levels. `market_context` is the dict handed to `_combine_signals`: the
fusion reads only its `status` and top-level `regime` keys. -/

inductive SAction
  | long
  | short
  | buy
  | sell
  | close
  | hold
deriving DecidableEq, Repr

structure StratSignal where
  action : SAction
  strength : ℚ
  entry_price : Option ℚ
  stop_loss : Option ℚ
  target_price : Option ℚ
deriving DecidableEq, Repr

structure MarketContext where
  status : String
  regime : Option String
deriving DecidableEq, Repr

/-- action normalization: `long → buy`, `short → sell`, others unchanged. -/
def normalizeAction : SAction → SAction
  | .long => .buy
  | .short => .sell
  | a => a

def buyVotes (signals : List StratSignal) : Nat :=
  ((signals.map (fun s => normalizeAction s.action)).filter (fun a => a = .buy)).length

def sellVotes (signals : List StratSignal) : Nat :=
  ((signals.map (fun s => normalizeAction s.action)).filter (fun a => a = .sell)).length

def closeVotes (signals : List StratSignal) : Nat :=
  ((signals.map (fun s => normalizeAction s.action)).filter (fun a => a = .close)).length

def holdVotes (signals : List StratSignal) : Nat :=
  ((signals.map (fun s => normalizeAction s.action)).filter (fun a => a = .hold)).length

def strengthSum (signals : List StratSignal) : ℚ :=
  (signals.map (fun s => s.strength)).sum

/-- `market_context and market_context.get('status') == 'complete'` followed
by `market_context.get('regime', 'normal') == 'high_volatility'`. -/
def highVolDiscount : Option MarketContext → Bool
  | some c => c.status = "complete" && c.regime.getD "normal" = "high_volatility"
  | none => false

/-- Python's `max(signals.values(), key=get_strength)`: first signal of
maximal strength (`none` on an empty dict, where the source raises). -/
def strongestSignal : List StratSignal → Option StratSignal
  | [] => none
  | s :: rest =>
    some (rest.foldl (fun best x => if best.strength < x.strength then x else best) s)

structure CombinedSignal where
  action : SAction
  confidence : ℚ
  entry_price : Option ℚ
  stop_loss : Option ℚ
  target_price : Option ℚ
deriving DecidableEq, Repr

def combine_signals (signals : List StratSignal)
    (ctx : Option MarketContext) : CombinedSignal :=
  let total : ℚ := (signals.length : ℚ)
  let base : SAction × ℚ :=
    if 0 < closeVotes signals then
      (.close, (closeVotes signals : ℚ) / total)
    else if sellVotes signals < buyVotes signals ∧ holdVotes signals < buyVotes signals then
      (.buy, (buyVotes signals : ℚ) / total)
    else if buyVotes signals < sellVotes signals ∧ holdVotes signals < sellVotes signals then
      (.sell, (sellVotes signals : ℚ) / total)
    else
      (.hold, 0)
  let c1 : ℚ :=
    if base.1 = .buy ∨ base.1 = .sell then base.2 * (strengthSum signals / total)
    else base.2
  let c2 : ℚ := if highVolDiscount ctx then c1 * 0.7 else c1
  let st := strongestSignal signals
  { action := base.1
    confidence := c2
    entry_price := if base.1 = .buy ∨ base.1 = .sell then st.bind (fun s => s.entry_price) else none
    stop_loss := if base.1 = .buy ∨ base.1 = .sell then st.bind (fun s => s.stop_loss) else none
    target_price := if base.1 = .buy ∨ base.1 = .sell then st.bind (fun s => s.target_price) else none }

/-- two agreeing buy signals at full strength plus a hold of strength 1/2:
the claimed agreeing-only average would be 1, the code averages all three. -/
def fusionSignals : List StratSignal :=
  [ { action := .buy, strength := 1, entry_price := some 100, stop_loss := some 95
      target_price := none },
    { action := .long, strength := 1, entry_price := some 101, stop_loss := some 96
      target_price := none },
    { action := .hold, strength := 0.5, entry_price := none, stop_loss := none
      target_price := none } ]

/-- C3 counterexample: on `fusionSignals` the combined action is buy with 2
of 3 votes, the agreeing strategies have average strength 1, so the claim
predicts confidence `2/3 × 1 = 2/3`; the code returns `5/9`, because it
averages the strengths of all strategies including the disagreeing hold. -/
theorem combine_confidence_not_agreeing_average :
    (combine_signals fusionSignals none).action = SAction.buy ∧
    buyVotes fusionSignals = 2 ∧
    fusionSignals.length = 3 ∧
    (combine_signals fusionSignals none).confidence = 5/9 ∧
    ((5 : ℚ)/9) ≠ 2/3 * 1 := by
  have hc : closeVotes fusionSignals = 0 := by decide
  have hb : buyVotes fusionSignals = 2 := by decide
  have hs : sellVotes fusionSignals = 0 := by decide
  have hh : holdVotes fusionSignals = 1 := by decide
  have hlen : fusionSignals.length = 3 := by decide
  have hsum : strengthSum fusionSignals = 5/2 := by
    norm_num [strengthSum, fusionSignals]
  refine ⟨?_, hb, hlen, ?_, by norm_num⟩
  · simp [combine_signals, hc, hb, hs, hh]
  · simp [combine_signals, hc, hb, hs, hh, hlen, hsum, highVolDiscount]
    norm_num

/-- C3 amended: for a combined buy or sell, the confidence equals
`(winning_votes / total_strategies) × (sum of ALL strategies' strengths /
total_strategies)` — the average over every strategy, agreeing or not —
multiplied by 0.7 exactly when the market-context dict has top-level
`status = "complete"` and top-level `regime = "high_volatility"`. -/
theorem combine_confidence_formula
    (signals : List StratSignal) (ctx : Option MarketContext) :
    ((combine_signals signals ctx).action = SAction.buy →
      (combine_signals signals ctx).confidence
        = (buyVotes signals : ℚ) / signals.length
          * (strengthSum signals / signals.length)
          * (if highVolDiscount ctx then 0.7 else 1)) ∧
    ((combine_signals signals ctx).action = SAction.sell →
      (combine_signals signals ctx).confidence
        = (sellVotes signals : ℚ) / signals.length
          * (strengthSum signals / signals.length)
          * (if highVolDiscount ctx then 0.7 else 1)) := by
  simp only [combine_signals]
  by_cases hc : 0 < closeVotes signals
  · simp [hc]
  · by_cases hb : sellVotes signals < buyVotes signals ∧ holdVotes signals < buyVotes signals
    · by_cases hv : highVolDiscount ctx = true
      · simp [hc, hb, hv]
      · simp [hc, hb, hv]
    · by_cases hs : buyVotes signals < sellVotes signals ∧ holdVotes signals < sellVotes signals
      · by_cases hv : highVolDiscount ctx = true
        · simp [hc, hb, hs, hv]
        · simp [hc, hb, hs, hv]
      · simp [hc, hb, hs]

/-- Witness for C3's amended theorem applied to `fusionSignals` with no
market context: confidence is `(2/3) × (5/2 / 3) × 1`. -/
theorem combine_confidence_formula_witness :
    (combine_signals fusionSignals none).confidence
      = (buyVotes fusionSignals : ℚ) / fusionSignals.length
        * (strengthSum fusionSignals / fusionSignals.length)
        * (if highVolDiscount none then 0.7 else 1) :=
  (combine_confidence_formula fusionSignals none).1 (by decide)

/-! ### StrategyAgent.generate_signals (`agents/strategy_agent.py`, 26-68)

`generate_signals` is modelled with the two strategies' outputs passed in as
`strat_signals` (the source builds them by calling
`MeanReversionStrategy.generate_signal` and `MomentumStrategy.generate_signal`,
whose rolling standard deviations are irrational and live outside this
rational embedding); the bar count stands for `len(df)`. -/

inductive SigStatus
  | insufficient_data
  | complete
deriving DecidableEq, Repr

structure SignalsOutcome where
  status : SigStatus
  signal : SAction
  confidence : ℚ
deriving DecidableEq, Repr

def generate_signals (bars_count : Nat) (strat_signals : List StratSignal)
    (ctx : Option MarketContext) : SignalsOutcome :=
  if bars_count < 50 then
    { status := .insufficient_data, signal := .hold, confidence := 0 }
  else
    { status := .complete
      signal := (combine_signals strat_signals ctx).action
      confidence := (combine_signals strat_signals ctx).confidence }

theorem strengthSum_nonneg (signals : List StratSignal)
    (h : ∀ s ∈ signals, 0 ≤ s.strength) : 0 ≤ strengthSum signals := by
  induction signals with
  | nil => simp [strengthSum]
  | cons a l ih =>
    have ha : 0 ≤ a.strength := h a (List.mem_cons_self a l)
    have hl : 0 ≤ strengthSum l := ih (fun s hs => h s (List.mem_cons_of_mem a hs))
    simp only [strengthSum, List.map_cons, List.sum_cons] at *
    linarith

theorem strengthSum_le_length (signals : List StratSignal)
    (h : ∀ s ∈ signals, s.strength ≤ 1) :
    strengthSum signals ≤ (signals.length : ℚ) := by
  induction signals with
  | nil => simp [strengthSum]
  | cons a l ih =>
    have ha : a.strength ≤ 1 := h a (List.mem_cons_self a l)
    have hl : strengthSum l ≤ (l.length : ℚ) :=
      ih (fun s hs => h s (List.mem_cons_of_mem a hs))
    simp only [strengthSum, List.map_cons, List.sum_cons, List.length_cons] at *
    push_cast
    linarith

theorem closeVotes_le_length (signals : List StratSignal) :
    closeVotes signals ≤ signals.length := by
  have h1 := (List.filter_sublist
    (l := signals.map (fun s => normalizeAction s.action))
    (p := fun a => a = .close)).length_le
  simpa [closeVotes, List.length_map] using h1

theorem buyVotes_le_length (signals : List StratSignal) :
    buyVotes signals ≤ signals.length := by
  have h1 := (List.filter_sublist
    (l := signals.map (fun s => normalizeAction s.action))
    (p := fun a => a = .buy)).length_le
  simpa [buyVotes, List.length_map] using h1

theorem sellVotes_le_length (signals : List StratSignal) :
    sellVotes signals ≤ signals.length := by
  have h1 := (List.filter_sublist
    (l := signals.map (fun s => normalizeAction s.action))
    (p := fun a => a = .sell)).length_le
  simpa [sellVotes, List.length_map] using h1

theorem unit_div {a b : ℚ} (h0 : 0 ≤ a) (h1 : a ≤ b) (hb : 0 < b) :
    0 ≤ a / b ∧ a / b ≤ 1 :=
  ⟨div_nonneg h0 hb.le, (div_le_one hb).mpr h1⟩

/-- the fused confidence as one closed formula, by case analysis on the
voting branches (the regime discount commuted to the front). -/
theorem combine_signals_confidence_eq (signals : List StratSignal)
    (ctx : Option MarketContext) :
    (combine_signals signals ctx).confidence =
      (if highVolDiscount ctx then (0.7 : ℚ) else 1) *
      (if 0 < closeVotes signals then
        (closeVotes signals : ℚ) / signals.length
       else if sellVotes signals < buyVotes signals ∧ holdVotes signals < buyVotes signals then
        (buyVotes signals : ℚ) / signals.length * (strengthSum signals / signals.length)
       else if buyVotes signals < sellVotes signals ∧ holdVotes signals < sellVotes signals then
        (sellVotes signals : ℚ) / signals.length * (strengthSum signals / signals.length)
       else 0) := by
  simp only [combine_signals]
  by_cases hc : 0 < closeVotes signals
  · by_cases hv : highVolDiscount ctx = true <;> simp [hc, hv] <;> ring
  · by_cases hb : sellVotes signals < buyVotes signals ∧ holdVotes signals < buyVotes signals
    · by_cases hv : highVolDiscount ctx = true <;> simp [hc, hb, hv] <;> ring
    · by_cases hs : buyVotes signals < sellVotes signals ∧ holdVotes signals < sellVotes signals
      · by_cases hv : highVolDiscount ctx = true <;> simp [hc, hb, hs, hv] <;> ring
      · by_cases hv : highVolDiscount ctx = true <;> simp [hc, hb, hs, hv]

theorem combine_confidence_mem (signals : List StratSignal)
    (ctx : Option MarketContext)
    (h : ∀ s ∈ signals, 0 ≤ s.strength ∧ s.strength ≤ 1) :
    0 ≤ (combine_signals signals ctx).confidence ∧
    (combine_signals signals ctx).confidence ≤ 1 := by
  have hsum0 : 0 ≤ strengthSum signals :=
    strengthSum_nonneg signals (fun s hs => (h s hs).1)
  have hsum1 : strengthSum signals ≤ (signals.length : ℚ) :=
    strengthSum_le_length signals (fun s hs => (h s hs).2)
  rw [combine_signals_confidence_eq]
  have hbase : 0 ≤ (if 0 < closeVotes signals then
        (closeVotes signals : ℚ) / signals.length
       else if sellVotes signals < buyVotes signals ∧ holdVotes signals < buyVotes signals then
        (buyVotes signals : ℚ) / signals.length * (strengthSum signals / signals.length)
       else if buyVotes signals < sellVotes signals ∧ holdVotes signals < sellVotes signals then
        (sellVotes signals : ℚ) / signals.length * (strengthSum signals / signals.length)
       else 0) ∧
      (if 0 < closeVotes signals then
        (closeVotes signals : ℚ) / signals.length
       else if sellVotes signals < buyVotes signals ∧ holdVotes signals < buyVotes signals then
        (buyVotes signals : ℚ) / signals.length * (strengthSum signals / signals.length)
       else if buyVotes signals < sellVotes signals ∧ holdVotes signals < sellVotes signals then
        (sellVotes signals : ℚ) / signals.length * (strengthSum signals / signals.length)
       else 0) ≤ 1 := by
    split_ifs with hc hb hs
    · have hn : 0 < signals.length := lt_of_lt_of_le hc (closeVotes_le_length signals)
      have hnq : (0 : ℚ) < (signals.length : ℚ) := by exact_mod_cast hn
      exact unit_div (by positivity)
        (by exact_mod_cast closeVotes_le_length signals) hnq
    · have hbv : 0 < buyVotes signals := Nat.lt_of_le_of_lt (Nat.zero_le _) hb.1
      have hn : 0 < signals.length := lt_of_lt_of_le hbv (buyVotes_le_length signals)
      have hnq : (0 : ℚ) < (signals.length : ℚ) := by exact_mod_cast hn
      have hvle : ((buyVotes signals : ℚ)) ≤ (signals.length : ℚ) := by
        exact_mod_cast buyVotes_le_length signals
      have ha := unit_div (by positivity) hvle hnq
      have hq := unit_div hsum0 hsum1 hnq
      exact ⟨mul_nonneg ha.1 hq.1, by nlinarith [ha.1, ha.2, hq.1, hq.2]⟩
    · have hsv : 0 < sellVotes signals := Nat.lt_of_le_of_lt (Nat.zero_le _) hs.1
      have hn : 0 < signals.length := lt_of_lt_of_le hsv (sellVotes_le_length signals)
      have hnq : (0 : ℚ) < (signals.length : ℚ) := by exact_mod_cast hn
      have hvle : ((sellVotes signals : ℚ)) ≤ (signals.length : ℚ) := by
        exact_mod_cast sellVotes_le_length signals
      have ha := unit_div (by positivity) hvle hnq
      have hq := unit_div hsum0 hsum1 hnq
      exact ⟨mul_nonneg ha.1 hq.1, by nlinarith [ha.1, ha.2, hq.1, hq.2]⟩
    · exact ⟨le_refl 0, by norm_num⟩
  have hdisc : 0 ≤ (if highVolDiscount ctx then (0.7 : ℚ) else 1) ∧
      (if highVolDiscount ctx then (0.7 : ℚ) else 1) ≤ 1 := by
    split <;> norm_num
  exact ⟨mul_nonneg hdisc.1 hbase.1,
    by nlinarith [hdisc.1, hdisc.2, hbase.1, hbase.2]⟩

/-- C9: the confidence returned by `generate_signals` lies in `[0, 1]` for
every bar count, market context and list of per-strategy outputs whose
strengths lie in `[0, 1]` (mean reversion clamps its confidence to `[0, 1]`,
momentum caps `signal_strength` at 1 and it is non-negative): this covers
the insufficient-data branch, the close/hold branches, the strength
weighting and the 0.7 high-volatility discount. -/
theorem generate_signals_confidence_in_unit_interval
    (bars_count : Nat) (strat_signals : List StratSignal)
    (ctx : Option MarketContext)
    (h : ∀ s ∈ strat_signals, 0 ≤ s.strength ∧ s.strength ≤ 1) :
    0 ≤ (generate_signals bars_count strat_signals ctx).confidence ∧
    (generate_signals bars_count strat_signals ctx).confidence ≤ 1 := by
  by_cases hlen : bars_count < 50
  · simp [generate_signals, hlen]
  · simp only [generate_signals, if_neg hlen]
    exact combine_confidence_mem strat_signals ctx h

/-- Witness for C9: the concrete fusion input `fusionSignals` (strengths 1,
1 and 1/2) with 60 bars and no market context. -/
theorem generate_signals_confidence_in_unit_interval_witness :
    0 ≤ (generate_signals 60 fusionSignals none).confidence ∧
    (generate_signals 60 fusionSignals none).confidence ≤ 1 :=
  generate_signals_confidence_in_unit_interval 60 fusionSignals none
    (by intro s hs; fin_cases hs <;> norm_num)

/-! ### Trade store (`utils/database.py`) and ExecutionAgent
(`agents/execution_agent.py`, simulation mode)

The SQLite tables become lists; `timestamp`/`notes` columns, which are pure
log strings, are not modelled. Timestamps are abstract naturals. -/

inductive Side
  | buy
  | sell
deriving DecidableEq, Repr

inductive TradeStatus
  | isOpen
  | isClosed
deriving DecidableEq, Repr

structure Trade where
  id : Nat
  symbol : String
  side : Side
  quantity : ℚ
  entry_price : ℚ
  exit_price : Option ℚ
  stop_loss : ℚ
  strategy : String
  status : TradeStatus
  pnl : Option ℚ
  pnl_percent : Option ℚ
  exit_timestamp : Option Nat
deriving DecidableEq, Repr

structure Store where
  trades : List Trade
  positions : List Position
  next_id : Nat
deriving DecidableEq, Repr

def initStore : Store := { trades := [], positions := [], next_id := 1 }

/-- `TradingDatabase.log_trade`: insert with a fresh autoincrement id. -/
def log_trade (s : Store) (t : Trade) : Nat × Store :=
  (s.next_id,
    { s with trades := s.trades ++ [{ t with id := s.next_id }]
             next_id := s.next_id + 1 })

/-- `TradingDatabase.update_position`: INSERT OR REPLACE keyed by symbol. -/
def update_position (s : Store) (symbol : String) (p : Position) : Store :=
  { s with positions := (s.positions.filter (fun q => q.symbol ≠ symbol)) ++ [p] }

/-- `TradingDatabase.remove_position`. -/
def remove_position (s : Store) (symbol : String) : Store :=
  { s with positions := s.positions.filter (fun q => q.symbol ≠ symbol) }

/-- the P&L `close_trade` computes from the trade row (side dispatch). -/
def trade_pnl (side : Side) (entry xp qty : ℚ) : ℚ :=
  match side with
  | .buy => (xp - entry) * qty
  | .sell => (entry - xp) * qty

/-- the percentage `close_trade` computes: price move over entry, times 100. -/
def trade_pnl_percent (side : Side) (entry xp : ℚ) : ℚ :=
  match side with
  | .buy => (xp - entry) / entry * 100
  | .sell => (entry - xp) / entry * 100

/-- `TradingDatabase.close_trade`: looks the row up by id and, whenever it
exists, overwrites exit fields and status — the row's current status is
never consulted. -/
def close_trade (s : Store) (trade_id : Nat) (exit_price : ℚ)
    (exit_timestamp : Nat) : Store :=
  { s with trades := s.trades.map (fun t =>
      if t.id = trade_id then
        { t with exit_price := some exit_price
                 exit_timestamp := some exit_timestamp
                 pnl := some (trade_pnl t.side t.entry_price exit_price t.quantity)
                 pnl_percent := some (trade_pnl_percent t.side t.entry_price exit_price)
                 status := .isClosed }
      else t) }

structure OrderOutcome where
  success : Bool
  message : Option String
deriving DecidableEq, Repr

/-- `ExecutionAgent.place_order` in simulation mode (`self.client is None`):
rejects non-positive quantities, otherwise fills instantly. -/
def place_order (side : Side) (quantity : ℚ) (limit_price : Option ℚ) :
    OrderOutcome :=
  if quantity ≤ 0 then { success := false, message := some "Invalid quantity" }
  else { success := true, message := none }

structure PositionDetails where
  quantity : ℚ
  entry_price : Option ℚ
  stop_loss : Option ℚ
deriving DecidableEq, Repr

structure ExecResult where
  success : Bool
  message : Option String
  trade_id : Option Nat
deriving DecidableEq, Repr

/-- `ExecutionAgent.execute_trade`: place order; on failure return the
surfaced error with the store untouched; on success log an open trade and
upsert the position. -/
def execute_trade (store : Store) (symbol : String) (action : Side)
    (pd : PositionDetails) (strategy : String) (now : Nat) :
    ExecResult × Store :=
  let order := place_order action pd.quantity none
  if order.success = false then
    ({ success := false
       message := some ("Failed to place order: " ++ order.message.getD "")
       trade_id := none }, store)
  else
    let entry := pd.entry_price.getD 0
    let stop := pd.stop_loss.getD 0
    let logged := log_trade store
      { id := 0, symbol := symbol, side := action, quantity := pd.quantity
        entry_price := entry, exit_price := none, stop_loss := stop
        strategy := strategy, status := .isOpen, pnl := none
        pnl_percent := none, exit_timestamp := none }
    let s2 := update_position logged.2 symbol
      { symbol := symbol
        quantity := if action = .buy then pd.quantity else -pd.quantity
        entry_price := entry, current_price := entry, stop_loss := stop
        strategy := strategy, entry_timestamp := now, unrealized_pnl := 0 }
    ({ success := true, message := none, trade_id := some logged.1 }, s2)

/-- the P&L `close_position` computes from the position row
(sign dispatch on the signed quantity, magnitude `|quantity|`). -/
def close_position_pnl (posqty entry cp : ℚ) : ℚ :=
  if posqty > 0 then (cp - entry) * |posqty| else (entry - cp) * |posqty|

/-- the percentage `close_position` computes: pnl over entry × quantity. -/
def close_position_pct (posqty entry cp : ℚ) : ℚ :=
  close_position_pnl posqty entry cp / (entry * |posqty|) * 100

structure CloseOutcome where
  success : Bool
  message : Option String
  pnl : Option ℚ
  pnl_percent : Option ℚ
  exit_price : Option ℚ
deriving DecidableEq, Repr

/-- `ExecutionAgent.close_position`: find the position, place the opposite
order for `|quantity|`, and only after a successful fill close the matching
open trade and delete the position; `latest_price` is
`DataFetcher.get_latest_price` (Python `or` falls back on 0 or `None`). -/
def close_position (s : Store) (symbol : String) (latest_price : Option ℚ)
    (now : Nat) : CloseOutcome × Store :=
  match s.positions.find? (fun p => p.symbol = symbol) with
  | none =>
    ({ success := false, message := some ("No open position for " ++ symbol)
       pnl := none, pnl_percent := none, exit_price := none }, s)
  | some position =>
    let quantity := |position.quantity|
    let side := if position.quantity > 0 then Side.sell else Side.buy
    let current_price :=
      match latest_price with
      | some p => if p = 0 then position.current_price else p
      | none => position.current_price
    let order := place_order side quantity none
    if order.success = false then
      ({ success := false
         message := some ("Failed to close position: " ++ order.message.getD "")
         pnl := none, pnl_percent := none, exit_price := none }, s)
    else
      let s1 :=
        match (s.trades.filter (fun t => t.status = TradeStatus.isOpen)).find?
            (fun t => t.symbol = symbol) with
        | some t => close_trade s t.id current_price now
        | none => s
      let s2 := remove_position s1 symbol
      ({ success := true, message := none
         pnl := some (close_position_pnl position.quantity position.entry_price current_price)
         pnl_percent := some (close_position_pct position.quantity position.entry_price current_price)
         exit_price := some current_price }, s2)

/-- C5: for `qty > 0` and `entry > 0`, the P&L the database's `close_trade`
records is `(exit − entry) × qty` for side buy and `(entry − exit) × qty`
for side sell, its recorded percentage equals `pnl / (entry × qty) × 100`,
and `ExecutionAgent.close_position` computes the same P&L and percentage
for the corresponding long (`+qty`) and short (`−qty`) positions. -/
theorem closed_trade_pnl_agrees (entry xp q : ℚ) (hq : 0 < q) (he : 0 < entry) :
    trade_pnl Side.buy entry xp q = (xp - entry) * q ∧
    trade_pnl Side.sell entry xp q = (entry - xp) * q ∧
    trade_pnl_percent Side.buy entry xp
      = trade_pnl Side.buy entry xp q / (entry * q) * 100 ∧
    trade_pnl_percent Side.sell entry xp
      = trade_pnl Side.sell entry xp q / (entry * q) * 100 ∧
    close_position_pnl q entry xp = trade_pnl Side.buy entry xp q ∧
    close_position_pnl (-q) entry xp = trade_pnl Side.sell entry xp q ∧
    close_position_pct q entry xp = trade_pnl_percent Side.buy entry xp ∧
    close_position_pct (-q) entry xp = trade_pnl_percent Side.sell entry xp := by
  have hqne : q ≠ 0 := ne_of_gt hq
  have hene : entry ≠ 0 := ne_of_gt he
  have habs : |q| = q := abs_of_pos hq
  have habsn : |(-q)| = q := by rw [abs_neg, habs]
  have hnpos : ¬ (-q > 0) := by linarith
  refine ⟨rfl, rfl, ?_, ?_, ?_, ?_, ?_, ?_⟩
  · simp only [trade_pnl, trade_pnl_percent]
    field_simp
    ring
  · simp only [trade_pnl, trade_pnl_percent]
    field_simp
    ring
  · simp [close_position_pnl, trade_pnl, hq, habs]
  · simp [close_position_pnl, trade_pnl, hnpos, habsn]
  · simp only [close_position_pct, close_position_pnl, trade_pnl_percent,
      if_pos hq, habs]
    field_simp
    ring
  · simp only [close_position_pct, close_position_pnl, trade_pnl_percent,
      if_neg hnpos, habsn]
    field_simp
    ring

/-- Witness for C5: entry 100, exit 110, quantity 10. -/
theorem closed_trade_pnl_agrees_witness :
    trade_pnl Side.buy 100 110 10 = (110 - 100) * 10 ∧
    trade_pnl Side.sell 100 110 10 = (100 - 110) * 10 ∧
    trade_pnl_percent Side.buy 100 110
      = trade_pnl Side.buy 100 110 10 / (100 * 10) * 100 ∧
    trade_pnl_percent Side.sell 100 110
      = trade_pnl Side.sell 100 110 10 / (100 * 10) * 100 ∧
    close_position_pnl 10 100 110 = trade_pnl Side.buy 100 110 10 ∧
    close_position_pnl (-10) 100 110 = trade_pnl Side.sell 100 110 10 ∧
    close_position_pct 10 100 110 = trade_pnl_percent Side.buy 100 110 ∧
    close_position_pct (-10) 100 110 = trade_pnl_percent Side.sell 100 110 :=
  closed_trade_pnl_agrees 100 110 10 (by norm_num) (by norm_num)

/-- a trade that has already been closed once (entry 100, exit 110,
pnl 100). -/
def closedTrade : Trade :=
  { id := 1, symbol := "TSLA", side := .buy, quantity := 10, entry_price := 100
    exit_price := some 110, stop_loss := 95, strategy := "mean_reversion"
    status := .isClosed, pnl := some 100, pnl_percent := some 10
    exit_timestamp := some 5 }

def storeWithClosedTrade : Store :=
  { trades := [closedTrade], positions := [], next_id := 2 }

/-- C6 counterexample: re-closing the already-closed trade 1 at exit price
120 is not rejected — it silently overwrites exit_price, pnl, pnl_percent
and exit_timestamp with freshly computed values. -/
theorem close_trade_reclose_overwrites :
    closedTrade.status = TradeStatus.isClosed ∧
    (close_trade storeWithClosedTrade 1 120 9).trades.map (fun t => t.pnl)
      = [some 200] ∧
    (close_trade storeWithClosedTrade 1 120 9).trades.map (fun t => t.exit_price)
      = [some 120] ∧
    (close_trade storeWithClosedTrade 1 120 9).trades.map (fun t => t.exit_timestamp)
      = [some 9] ∧
    closedTrade.pnl = some 100 ∧ closedTrade.exit_price = some 110 ∧
    closedTrade.exit_timestamp = some 5 := by
  refine ⟨rfl, ?_, ?_, ?_, rfl, rfl, rfl⟩ <;>
    norm_num [close_trade, storeWithClosedTrade, closedTrade, trade_pnl,
      trade_pnl_percent]

/-- C6 amended: `close_trade` on any existing trade id overwrites
exit_price, pnl, pnl_percent, exit_timestamp and sets status closed,
computing the P&L from the new exit price — regardless of whether the trade
was already closed; re-closing is silently accepted, not an error. -/
theorem close_trade_updates_regardless_of_status
    (s : Store) (tid : Nat) (xp : ℚ) (ts : Nat) (t : Trade)
    (hmem : t ∈ s.trades) (hid : t.id = tid) :
    { t with exit_price := some xp
             exit_timestamp := some ts
             pnl := some (trade_pnl t.side t.entry_price xp t.quantity)
             pnl_percent := some (trade_pnl_percent t.side t.entry_price xp)
             status := TradeStatus.isClosed }
      ∈ (close_trade s tid xp ts).trades := by
  simp only [close_trade]
  refine List.mem_map.mpr ⟨t, hmem, ?_⟩
  simp [hid]

/-- Witness for C6's amended theorem: the already-closed trade 1 is
overwritten by a second close at 120. -/
theorem close_trade_updates_regardless_of_status_witness :
    { closedTrade with
        exit_price := some (120 : ℚ)
        exit_timestamp := some 9
        pnl := some (trade_pnl closedTrade.side closedTrade.entry_price 120
          closedTrade.quantity)
        pnl_percent := some (trade_pnl_percent closedTrade.side
          closedTrade.entry_price 120)
        status := TradeStatus.isClosed }
      ∈ (close_trade storeWithClosedTrade 1 120 9).trades :=
  close_trade_updates_regardless_of_status storeWithClosedTrade 1 120 9
    closedTrade (by simp [storeWithClosedTrade]) rfl

/-- C8: whenever order placement fails, `execute_trade` returns
`success = false` with the order error surfaced in its message and the
store unchanged (no trade logged, no position upserted); and for a found
position whose closing order fails, `close_position` returns
`success = false` with the error surfaced and the store unchanged (no trade
closed, no position removed). -/
theorem order_failure_leaves_store_unchanged
    (s : Store) (sym : String) (a : Side) (pd : PositionDetails)
    (strat : String) (now : Nat) (lp : Option ℚ) :
    ((place_order a pd.quantity none).success = false →
      (execute_trade s sym a pd strat now).1.success = false ∧
      (execute_trade s sym a pd strat now).1.message
        = some ("Failed to place order: "
            ++ (place_order a pd.quantity none).message.getD "") ∧
      (execute_trade s sym a pd strat now).2 = s) ∧
    (∀ p, s.positions.find? (fun q => q.symbol = sym) = some p →
      (place_order (if p.quantity > 0 then Side.sell else Side.buy)
          |p.quantity| none).success = false →
      (close_position s sym lp now).1.success = false ∧
      (close_position s sym lp now).1.message
        = some ("Failed to close position: "
            ++ (place_order (if p.quantity > 0 then Side.sell else Side.buy)
                |p.quantity| none).message.getD "") ∧
      (close_position s sym lp now).2 = s) := by
  constructor
  · intro h
    simp [execute_trade, h]
  · intro p hp hfail
    simp only [close_position]
    rw [hp]
    simp [hfail]

/-- a store holding a single zero-quantity position, on which any order
(entry or close) is rejected by `place_order`. -/
def zeroQtyPos : Position :=
  { symbol := "AAPL", quantity := 0, entry_price := 100, current_price := 100
    stop_loss := 95, strategy := "momentum", entry_timestamp := 0
    unrealized_pnl := 0 }

def storeWithZeroQtyPos : Store :=
  { trades := [], positions := [zeroQtyPos], next_id := 1 }

def pdZero : PositionDetails :=
  { quantity := 0, entry_price := some 100, stop_loss := some 95 }

/-- Witness for C8: a zero-quantity entry and a zero-quantity close both
fail and leave the store exactly as it was. -/
theorem order_failure_leaves_store_unchanged_witness :
    (execute_trade storeWithZeroQtyPos "AAPL" Side.buy pdZero "momentum" 0).1.success
      = false ∧
    (execute_trade storeWithZeroQtyPos "AAPL" Side.buy pdZero "momentum" 0).2
      = storeWithZeroQtyPos ∧
    (close_position storeWithZeroQtyPos "AAPL" none 0).1.success = false ∧
    (close_position storeWithZeroQtyPos "AAPL" none 0).2 = storeWithZeroQtyPos := by
  have h := order_failure_leaves_store_unchanged storeWithZeroQtyPos "AAPL"
    Side.buy pdZero "momentum" 0 none
  have hfail : (place_order Side.buy pdZero.quantity none).success = false := by
    norm_num [place_order, pdZero]
  have hfind : storeWithZeroQtyPos.positions.find? (fun q => q.symbol = "AAPL")
      = some zeroQtyPos := by
    simp [storeWithZeroQtyPos, zeroQtyPos]
  have hfail2 : (place_order
      (if zeroQtyPos.quantity > 0 then Side.sell else Side.buy)
      |zeroQtyPos.quantity| none).success = false := by
    norm_num [place_order, zeroQtyPos]
  exact ⟨(h.1 hfail).1, (h.1 hfail).2.2, (h.2 zeroQtyPos hfind hfail2).1,
    (h.2 zeroQtyPos hfind hfail2).2.2⟩

/-- the sizing record produced for portfolio 10000, entry 400, stop 100:
risk per share 300 exceeds the 200 risk budget, so the quantity rounds
down to zero while remaining approved. -/
def zeroSizing : PositionSizing :=
  { quantity := 0, position_value := 0, risk_per_share := 300
    risk_amount := 0, risk_percent := 0, position_percent := 0 }

/-- C10: with portfolio 10000, entry 400, stop 100 (risk per share 300 >
risk budget 200), `calculate_position_size` approves with quantity 0;
`validate_trade` consequently approves the trade; and `execute_trade` on
that quantity fails because `place_order` rejects `quantity ≤ 0` with
"Invalid quantity" — sizing approval does not guarantee an executable
quantity. -/
theorem approved_sizing_can_be_unexecutable :
    calculate_position_size 10000 400 100 none = SizingResult.sized zeroSizing ∧
    zeroSizing.quantity = 0 ∧
    (validate_trade 10000 0 [] "TSLA" "buy" 400 100 0.5 none).approved = true ∧
    (execute_trade initStore "TSLA" Side.buy
      { quantity := (zeroSizing.quantity : ℚ), entry_price := some 400
        stop_loss := some 100 } "momentum" 0).1.success = false ∧
    (execute_trade initStore "TSLA" Side.buy
      { quantity := (zeroSizing.quantity : ℚ), entry_price := some 400
        stop_loss := some 100 } "momentum" 0).1.message
      = some ("Failed to place order: " ++ "Invalid quantity") ∧
    (place_order Side.buy ((zeroSizing.quantity : ℤ) : ℚ) none).message
      = some "Invalid quantity" := by
  have hq0 : risk_based_q 10000 300 = 0 := by
    rw [risk_based_q, truncQ_of_nonneg (by norm_num [MAX_PORTFOLIO_RISK])]
    rw [show (10000 * MAX_PORTFOLIO_RISK / 300 : ℚ) = 2/3 by
      norm_num [MAX_PORTFOLIO_RISK]]
    rw [Int.floor_eq_zero_iff]
    norm_num [Set.mem_Ico]
  have hq1 : capped_q 10000 400 0 = 0 := by
    rw [capped_q, if_neg (by push_cast; norm_num [MAX_POSITION_SIZE])]
  have hsz : calculate_position_size 10000 400 100 none
      = SizingResult.sized zeroSizing := by
    have habs : |(400 : ℚ) - 100| = 300 := by norm_num
    simp only [calculate_position_size, habs]
    rw [if_neg (by norm_num), hq0, hq1,
      show vol_adjusted_q none 0 = 0 from rfl]
    norm_num [zeroSizing]
  refine ⟨hsz, rfl, ?_, ?_, ?_, ?_⟩
  · simp only [validate_trade]
    rw [if_neg (by norm_num [DAILY_LOSS_LIMIT]),
      if_neg (by norm_num [MAX_POSITIONS]),
      if_neg (by norm_num), if_neg (by norm_num), hsz]
    norm_num [zeroSizing]
  · norm_num [execute_trade, place_order, zeroSizing]
  · norm_num [execute_trade, place_order, zeroSizing]
  · norm_num [place_order, zeroSizing]

/-! ### MeanReversionStrategy.backtest aggregation
(`strategies/mean_reversion.py`, 350-365)

The replay itself depends on rolling standard deviations (irrational), so it
is not embedded; `backtest_metrics` is the statistics block applied to the
recorded trades' pnl values (the source returns a reduced dict with no
`profit_factor` when there are no trades). -/

structure BacktestMetrics where
  total_trades : Nat
  winning_trades : Nat
  losing_trades : Nat
  win_rate : ℚ
  avg_win : ℚ
  avg_loss : ℚ
  profit_factor : ℚ
deriving DecidableEq, Repr

def backtest_metrics (pnls : List ℚ) : BacktestMetrics :=
  let winning := pnls.filter (fun p => p > 0)
  let losing := pnls.filter (fun p => p ≤ 0)
  { total_trades := pnls.length
    winning_trades := winning.length
    losing_trades := losing.length
    win_rate := (winning.length : ℚ) / pnls.length * 100
    avg_win := if winning.length = 0 then 0 else winning.sum / winning.length
    avg_loss := if losing.length = 0 then 0 else losing.sum / losing.length
    profit_factor := if losing.length = 0 then 0
      else |winning.sum / losing.sum| }

/-- C7 counterexample: for trade P&Ls [1, 1, −1], avg_win = 1 and
avg_loss = −1, so the claimed `|avg_win / avg_loss|` is 1; the code reports
profit_factor 2, the ratio of total win to total loss. -/
theorem profit_factor_not_avg_ratio :
    (backtest_metrics [1, 1, -1]).avg_win = 1 ∧
    (backtest_metrics [1, 1, -1]).avg_loss = -1 ∧
    (backtest_metrics [1, 1, -1]).profit_factor = 2 ∧
    ¬ (backtest_metrics [1, 1, -1]).profit_factor
        = |(backtest_metrics [1, 1, -1]).avg_win
            / (backtest_metrics [1, 1, -1]).avg_loss| := by
  have h1 : ([1, 1, -1] : List ℚ).filter (fun p => p > 0) = [1, 1] := by
    norm_num [List.filter]
  have h2 : ([1, 1, -1] : List ℚ).filter (fun p => p ≤ 0) = [-1] := by
    norm_num [List.filter]
  refine ⟨?_, ?_, ?_, ?_⟩ <;>
    · simp only [backtest_metrics, h1, h2]
      norm_num

/-- C7 amended: for a non-empty trade list, profit_factor is 0 when there
are no losing trades (pnl ≤ 0 counts as losing), and otherwise equals
`|avg_win × winning_count / (avg_loss × losing_count)|` — the ratio of
TOTAL winning pnl to TOTAL losing pnl, not of the averages. -/
theorem profit_factor_total_ratio (pnls : List ℚ) (h : pnls ≠ []) :
    ((backtest_metrics pnls).losing_trades = 0 →
      (backtest_metrics pnls).profit_factor = 0) ∧
    (0 < (backtest_metrics pnls).losing_trades →
      (backtest_metrics pnls).profit_factor
        = |((backtest_metrics pnls).avg_win
              * (backtest_metrics pnls).winning_trades)
            / ((backtest_metrics pnls).avg_loss
              * (backtest_metrics pnls).losing_trades)|) := by
  simp only [backtest_metrics]
  constructor
  · intro h0
    rw [if_pos h0]
  · intro hpos
    have hne : ¬ (pnls.filter (fun p => p ≤ 0)).length = 0 :=
      Nat.pos_iff_ne_zero.mp hpos
    rw [if_neg hne, if_neg hne]
    have hlq : ((pnls.filter (fun p => p ≤ 0)).length : ℚ) ≠ 0 := by
      exact_mod_cast hne
    by_cases hw : (pnls.filter (fun p => p > 0)).length = 0
    · have hwe : pnls.filter (fun p => p > 0) = [] := List.length_eq_zero.mp hw
      rw [if_pos hw, hwe]
      simp
    · rw [if_neg hw]
      have hwq : ((pnls.filter (fun p => p > 0)).length : ℚ) ≠ 0 := by
        exact_mod_cast hw
      rw [div_mul_cancel₀ _ hwq, div_mul_cancel₀ _ hlq]

/-- Witness for C7's amended theorem at the P&L list [2, −1]:
profit_factor 2 = |2 × 1 / (−1 × 1)|. -/
theorem profit_factor_total_ratio_witness :
    (backtest_metrics [2, -1]).profit_factor
      = |((backtest_metrics [2, -1]).avg_win
            * (backtest_metrics [2, -1]).winning_trades)
          / ((backtest_metrics [2, -1]).avg_loss
            * (backtest_metrics [2, -1]).losing_trades)| :=
  (profit_factor_total_ratio [2, -1] (by simp)).2
    (by norm_num [backtest_metrics, List.filter])

end TradingAgent
